import Mathlib

/-!
# DepScout-Backend — formal model of the dependency health analysis engine

A shallow embedding of `src/services/analyzer.service.ts` (class `AnalyzerService`)
together with the semantic-version operations it delegates to the npm `semver`
package (modelled from that library's implementation, v7.5+ line, strict mode).
JavaScript values that the service receives (the manifest supplied by the HTTP
layer) are modelled explicitly so that property access on `null`/`undefined`
raising a `TypeError` is visible as an `Except.error`, while property access on
other primitives (numbers, strings) yields `undefined` as in JavaScript.
External I/O (registry metadata, npms.io quality data, the `npm audit` JSON) is
frozen into explicit parameters; `Date.now()` is an explicit `now : Nat`
parameter.
-/

namespace DepScout

/-- A JavaScript value, as far as the engine inspects one: `null`/`undefined`,
primitives, and plain objects (ordered field lists, unique keys in real JS). -/
inductive JSValue where
  | nullv : JSValue
  | undefv : JSValue
  | num : Int → JSValue
  | str : String → JSValue
  | boolv : Bool → JSValue
  | obj : List (String × JSValue) → JSValue
deriving Repr

/-- Property access `v.name`: throws a `TypeError` on `null`/`undefined`,
returns the field on objects (or `undefined` when absent), and returns
`undefined` on other primitives (JS boxes them; none has these fields). -/
def getProp : JSValue → String → Except String JSValue
  | .nullv, name => .error ("Cannot read properties of null (reading '" ++ name ++ "')")
  | .undefv, name => .error ("Cannot read properties of undefined (reading '" ++ name ++ "')")
  | .obj fields, name => .ok ((fields.lookup name).getD .undefv)
  | _, _ => .ok .undefv

/-- JavaScript truthiness. -/
def truthy : JSValue → Bool
  | .nullv => false
  | .undefv => false
  | .num n => n != 0
  | .str s => s ≠ ""
  | .boolv b => b
  | .obj _ => true

/-- Own enumerable fields contributed by `{...v}` / `Object.entries(v)` /
`Object.keys(v)`: an object's fields, a string's indexed characters, nothing
for other primitives and for `null`/`undefined`. -/
def spreadFields : JSValue → List (String × JSValue)
  | .obj fields => fields
  | .str s => (s.toList.enum.map fun p => (toString p.1, JSValue.str (String.mk [p.2])))
  | _ => []

/-- `{...a, ...b}` on field lists: keys of `a` keep their position but take
`b`'s value when `b` also has the key; keys only in `b` are appended. -/
def spreadMerge (a b : List (String × JSValue)) : List (String × JSValue) :=
  (a.map fun p => (p.1, ((b.lookup p.1).getD p.2))) ++
    b.filter (fun p => (a.lookup p.1).isNone)

-- ========================================
-- Semantic versions (npm `semver` package, strict mode)
-- ========================================

/-- A parsed semantic version. Prerelease identifiers are kept as strings
(the library stores purely numeric ones as numbers, but they print back to the
same digit string, so strings are observationally equivalent). -/
structure Semver where
  major : Nat
  minor : Nat
  patch : Nat
  prerelease : List String
  build : List String
deriving Repr, DecidableEq

/-- Characters allowed in prerelease/build identifiers: `[0-9A-Za-z-]`. -/
def idChar (c : Char) : Bool := c.isDigit || c.isAlpha || c == '-'

/-- ASCII whitespace as trimmed by `String.prototype.trim` (the inputs here
are ASCII version strings). -/
def isWS (c : Char) : Bool := c == ' ' || c == '\t' || c == '\n' || c == '\r'

/-- `.trim()` on the character list. -/
def trimList (cs : List Char) : List Char :=
  ((cs.dropWhile isWS).reverse.dropWhile isWS).reverse

/-- `.toLowerCase()` — the severity words are ASCII. -/
def jsToLower (s : String) : String := String.mk (s.toList.map Char.toLower)

def natOfDigits (cs : List Char) : Nat :=
  cs.foldl (fun a c => a * 10 + (c.toNat - 48)) 0

/-- `Number.MAX_SAFE_INTEGER`: the library rejects larger main components. -/
def maxSafeInteger : Nat := 9007199254740991

/-- Parse one numeric main-version component (`0|[1-9]\d*`, bounded). -/
def parseNumId (cs : List Char) : Option (Nat × List Char) :=
  match cs.span Char.isDigit with
  | (ds, rest) =>
    match ds with
    | [] => none
    | d :: tl =>
      if d == '0' && tl ≠ [] then none
      else
        let n := natOfDigits ds
        if n ≤ maxSafeInteger then some (n, rest) else none

def expectDot : List Char → Option (List Char)
  | '.' :: t => some t
  | _ => none

/-- Split a character list on `.`, keeping empty pieces. -/
def splitDot : List Char → List Char → List (List Char)
  | [], acc => [acc.reverse]
  | c :: rest, acc =>
    if c == '.' then acc.reverse :: splitDot rest [] else splitDot rest (c :: acc)

/-- A valid prerelease identifier: nonempty, `[0-9A-Za-z-]` only, and if it is
all digits it must have no leading zero. -/
def preIdOk (cs : List Char) : Bool :=
  !cs.isEmpty && cs.all idChar &&
    (!(cs.all Char.isDigit) || cs.length == 1 || cs.head? != some '0')

/-- A valid build identifier: nonempty, `[0-9A-Za-z-]` only. -/
def buildIdOk (cs : List Char) : Bool := !cs.isEmpty && cs.all idChar

def parseBuild (maj min pat : Nat) (pre : List String) (b : List Char) : Option Semver :=
  let bIds := splitDot b []
  if bIds.all buildIdOk then
    some ⟨maj, min, pat, pre, bIds.map String.mk⟩
  else none

def parsePreAndBuild (maj min pat : Nat) (r : List Char) : Option Semver :=
  match r with
  | [] => some ⟨maj, min, pat, [], []⟩
  | '-' :: t =>
    match t.span (· != '+') with
    | (preCs, after) =>
      let preIds := splitDot preCs []
      if preIds.all preIdOk then
        match after with
        | [] => some ⟨maj, min, pat, preIds.map String.mk, []⟩
        | _ :: b => parseBuild maj min pat (preIds.map String.mk) b
      else none
  | '+' :: b => parseBuild maj min pat [] b
  | _ => none

def parseMain (cs : List Char) : Option Semver := do
  let (maj, r1) ← parseNumId cs
  let r2 ← expectDot r1
  let (min, r3) ← parseNumId r2
  let r4 ← expectDot r3
  let (pat, r5) ← parseNumId r4
  parsePreAndBuild maj min pat r5

/-- `semver.parse` in strict mode: length bound, trim, one optional leading
`v`, then `major.minor.patch[-prerelease][+build]`. -/
def parseSemver (s : String) : Option Semver :=
  if s.length > 256 then none
  else
    match trimList s.toList with
    | 'v' :: t => parseMain t
    | cs => parseMain cs

/-- `SemVer.version` / `format()`: `major.minor.patch[-prerelease]`
(build metadata is not part of the formatted version). -/
def formatSemver (v : Semver) : String :=
  toString v.major ++ "." ++ toString v.minor ++ "." ++ toString v.patch ++
    (if v.prerelease.isEmpty then "" else "-" ++ String.intercalate "." v.prerelease)

/-- `semver.valid`: the formatted version when the string parses, else `null`. -/
def validSemver (s : String) : Option String := (parseSemver s).map formatSemver

/-- `semver.clean`: trim, strip every leading `=`/`v`, then parse. We go
straight to the parsed value; `clean` itself returns its formatted string. -/
def cleanParse (s : String) : Option Semver :=
  parseSemver (String.mk ((trimList s.toList).dropWhile fun c => c == '=' || c == 'v'))

def cmpN (a b : Nat) : Ordering :=
  if a < b then .lt else if b < a then .gt else .eq

/-- JS string comparison (`a < b` on strings): lexicographic by code unit. -/
def cmpChars : List Char → List Char → Ordering
  | [], [] => .eq
  | [], _ :: _ => .lt
  | _ :: _, [] => .gt
  | a :: as, b :: bs =>
    match cmpN a.toNat b.toNat with
    | .eq => cmpChars as bs
    | o => o

/-- `/^[0-9]+$/` on a stored identifier. -/
def allDigits (s : String) : Bool := !s.isEmpty && s.toList.all Char.isDigit

/-- `compareIdentifiers`: numeric identifiers compare numerically and sort
before alphanumeric ones; otherwise JS string comparison. -/
def compareIdentifiers (a b : String) : Ordering :=
  match allDigits a, allDigits b with
  | true, true => cmpN (natOfDigits a.toList) (natOfDigits b.toList)
  | true, false => .lt
  | false, true => .gt
  | false, false => cmpChars a.toList b.toList

def cmpIdList : List String → List String → Ordering
  | [], [] => .eq
  | [], _ :: _ => .lt
  | _ :: _, [] => .gt
  | x :: xs, y :: ys =>
    match compareIdentifiers x y with
    | .eq => cmpIdList xs ys
    | o => o

/-- `comparePre`: a release outranks any prerelease; otherwise identifier
lists compare lexicographically, a strict shorter run comparing lower. -/
def comparePre (a b : List String) : Ordering :=
  match a, b with
  | [], [] => .eq
  | [], _ :: _ => .gt
  | _ :: _, [] => .lt
  | _ :: _, _ :: _ => cmpIdList a b

/-- `semver.compare`: precedence order; build metadata is ignored. -/
def compareSemver (v w : Semver) : Ordering :=
  match cmpN v.major w.major with
  | .eq =>
    match cmpN v.minor w.minor with
    | .eq =>
      match cmpN v.patch w.patch with
      | .eq => comparePre v.prerelease w.prerelease
      | o => o
    | o => o
  | o => o

/-- `semver.gt` on parsed versions. -/
def semverGt (v w : Semver) : Bool := compareSemver v w == .gt

inductive DiffKind where
  | major | premajor | minor | preminor | patch | prepatch | prerelease
deriving Repr, DecidableEq

/-- `semver.diff`, modelled from the library's v7.5+ implementation: equal
versions give `none`; when exactly the lower version is a prerelease the
release-transition rules apply; otherwise the first differing main component
decides, with a `pre` prefix when the higher version is a prerelease, and
`prerelease` when only the prerelease identifiers differ. -/
def versionDiff (v1 v2 : Semver) : Option DiffKind :=
  match compareSemver v1 v2 with
  | .eq => none
  | c =>
    let high := if c == .gt then v1 else v2
    let low := if c == .gt then v2 else v1
    let highHasPre := !high.prerelease.isEmpty
    let lowHasPre := !low.prerelease.isEmpty
    if lowHasPre && !highHasPre then
      if low.patch == 0 && low.minor == 0 then some .major
      else if high.patch ≠ 0 then some .patch
      else if high.minor ≠ 0 then some .minor
      else some .major
    else
      if v1.major ≠ v2.major then some (if highHasPre then .premajor else .major)
      else if v1.minor ≠ v2.minor then some (if highHasPre then .preminor else .minor)
      else if v1.patch ≠ v2.patch then some (if highHasPre then .prepatch else .patch)
      else some .prerelease

-- ========================================
-- Service types (`analyzer.service.ts` interfaces)
-- ========================================

inductive Severity where
  | critical | high | moderate | low | unknown
deriving Repr, DecidableEq

inductive UpdateType where
  | major | minor | patch
deriving Repr, DecidableEq

structure OutdatedPackage where
  package : String
  current : String
  latest : String
  type : UpdateType
deriving Repr, DecidableEq

structure Vulnerability where
  id : String
  package : String
  version : String
  severity : Severity
  description : String
  fixedIn : String
deriving Repr, DecidableEq

structure Summary where
  critical : Nat
  high : Nat
  moderate : Nat
  low : Nat
  outdated : Nat
  totalDeps : Nat
  totalDevDeps : Nat
deriving Repr, DecidableEq

structure NpmOutdatedInfo where
  current : String
  wanted : String
  latest : String
  location : String
deriving Repr, DecidableEq

/-- JS numbers here are integer-valued (differences of version components). -/
structure VersionDistance where
  majorVersionsBehind : Int
  minorVersionsBehind : Int
  patchVersionsBehind : Int
  totalDistance : Int
deriving Repr, DecidableEq

/-- The report value. The source types `dependencies`/`devDependencies` as
string records, but at runtime they hold `packageJson.dependencies || {}`,
which can be any truthy JS value — kept as `JSValue`. -/
structure Report where
  dependencies : JSValue
  devDependencies : JSValue
  healthScore : Int
  outdated : List OutdatedPackage
  summary : Summary
  totalDependencies : Nat
  vulnerabilities : List Vulnerability
deriving Repr

-- ========================================
-- Frozen external data (registry, npms.io, npm audit)
-- ========================================

/-- A `via` element's `source` field: npm audit uses advisory numbers, the
service's own synthetic entries use strings. -/
inductive SourceVal where
  | num : Int → SourceVal
  | str : String → SourceVal
deriving Repr, DecidableEq

/-- JS truthiness of a `source` value (`0` and `""` are falsy). -/
def SourceVal.truthyV : SourceVal → Bool
  | .num n => n != 0
  | .str s => s ≠ ""

/-- `source.toString()`. -/
def SourceVal.render : SourceVal → String
  | .num n => toString n
  | .str s => s

structure ViaObj where
  source : Option SourceVal
  title : Option String
  severity : Option String
  range : Option String
deriving Repr, DecidableEq

/-- npm audit `via` arrays mix objects with bare package-name strings;
`typeof via === 'object'` skips the strings. -/
inductive ViaElem where
  | strElem : String → ViaElem
  | objElem : ViaObj → ViaElem
deriving Repr, DecidableEq

structure VulnInfo where
  /-- `none` models an absent or non-array `via` (`vulnInfo.via && Array.isArray(vulnInfo.via)`). -/
  via : Option (List ViaElem)
  /-- `fixAvailable?.version`: `none` when `fixAvailable` is absent, a boolean,
  or has no `version` field. -/
  fixAvailableVersion : Option String
deriving Repr, DecidableEq

structure AuditData where
  /-- `none` models a falsy `npmAudit.vulnerabilities`. -/
  vulnerabilities : Option (List (String × VulnInfo))
deriving Repr, DecidableEq

structure VersionData where
  deprecated : Option String
deriving Repr, DecidableEq

/-- Parsed registry JSON, reduced to the fields the service reads
(`info['dist-tags']?.latest`, `info.versions[v].deprecated`). -/
structure RegistryInfo where
  distTagsLatest : Option String
  versions : Option (List (String × VersionData))
deriving Repr, DecidableEq

/-- npms.io response fields the service reads. Scores are JS floats compared
against 0.5 / 0.3; modelled as rationals (`none` = absent field, and a
comparison against an absent field is false in JS). -/
structure NpmsData where
  quality : Option Rat
  maintenance : Option Rat
  hasVulnerabilities : Bool

/-- A frozen registry: `none` models a rejected fetch (network/JSON failure),
which the per-package `catch` turns into skipping that package. -/
def Registry := String → Option RegistryInfo

/-- Frozen npms.io data; `none` models a rejected or timed-out fetch. -/
def Npms := String → Option NpmsData

-- ========================================
-- Service functions
-- ========================================

/-- `x || d` for a string-or-undefined JS value (`""` is falsy). -/
def orElseStr (o : Option String) (d : String) : String :=
  match o with
  | some s => if s = "" then d else s
  | none => d

def truthyStr (o : Option String) : Bool :=
  match o with
  | some s => s ≠ ""
  | none => false

/-- `extractVersionFromRange`: delete every range-operator character
(`^ ~ > = <`) anywhere in the string, trim, then `semver.valid`. -/
def extractVersionFromRange (range : String) : Option String :=
  let cleaned := String.mk (trimList (range.toList.filter fun c =>
    !(c == '^' || c == '~' || c == '>' || c == '=' || c == '<')))
  validSemver cleaned

/-- Range values are read out of a JS object. Calling `.replace` on a
non-string raises a `TypeError`, which every caller's per-package `catch`
turns into skipping the package — the same outcome as `none` here. -/
def extractVersionFromRangeJS : JSValue → Option String
  | .str s => extractVersionFromRange s
  | _ => none

/-- `{ ...packageJson.dependencies, ...packageJson.devDependencies }`:
property access may throw on a nullish manifest; spreading non-objects
contributes nothing (strings contribute indexed characters). -/
def mergedDeps (packageJson : JSValue) : Except String (List (String × JSValue)) := do
  let d ← getProp packageJson "dependencies"
  let dd ← getProp packageJson "devDependencies"
  pure (spreadMerge (spreadFields d) (spreadFields dd))

/-- Per-package body of `getOutdatedFast`: fetch registry info, resolve the
concrete current version, and record the package when the registry's latest
is strictly newer. Every failure path (rejected fetch, invalid `latest`
making `semver.gt` throw) is caught per package and yields `none`. -/
def outdatedFor (registry : Registry) (name : String) (range : JSValue) :
    Option NpmOutdatedInfo :=
  match registry name with
  | none => none
  | some info =>
    match extractVersionFromRangeJS range, info.distTagsLatest with
    | some current, some latestS =>
      if latestS = "" then none
      else
        match parseSemver latestS, parseSemver current with
        | some lv, some cv =>
          if semverGt lv cv then some ⟨current, latestS, latestS, ""⟩ else none
        | _, _ => none
    | _, _ => none

/-- `getOutdatedFast`: fan out over the merged dependency mappings; each
concurrent operation writes only its own key of the accumulation object
(entries kept here in manifest order). -/
def getOutdatedFast (packageJson : JSValue) (registry : Registry) :
    Except String (List (String × NpmOutdatedInfo)) := do
  let deps ← mergedDeps packageJson
  pure (deps.filterMap fun p => (outdatedFor registry p.1 p.2).map fun i => (p.1, i))

/-- `determineUpdateType`: clean both versions (`'patch'` if either fails),
then map `semver.diff`'s answer, `pre*` kinds included; `null` and
`'prerelease'` fall through to `'patch'`. `diff` re-parses the cleaned
strings, so it is applied to the parsed values directly. -/
def determineUpdateType (currentVersion latestVersion : String) : UpdateType :=
  match cleanParse currentVersion, cleanParse latestVersion with
  | some current, some latest =>
    match versionDiff current latest with
    | some .major | some .premajor => .major
    | some .minor | some .preminor => .minor
    | some .patch | some .prepatch => .patch
    | _ => .patch
  | _, _ => .patch

/-- `calculateVersionDistance`: component differences with only the highest
differing tier kept; all-zero on unparseable input. -/
def calculateVersionDistance (current latest : String) : VersionDistance :=
  match cleanParse current, cleanParse latest with
  | some curr, some lat =>
    let majorDiff : Int := (lat.major : Int) - (curr.major : Int)
    let minorDiff : Int := (lat.minor : Int) - (curr.minor : Int)
    let patchDiff : Int := (lat.patch : Int) - (curr.patch : Int)
    { majorVersionsBehind := majorDiff
      minorVersionsBehind := if majorDiff = 0 then minorDiff else 0
      patchVersionsBehind := if majorDiff = 0 ∧ minorDiff = 0 then patchDiff else 0
      totalDistance := majorDiff * 10000 + minorDiff * 100 + patchDiff }
  | _, _ => ⟨0, 0, 0, 0⟩

/-- `buildOutdatedList`: skip entries whose versions do not validate, classify
the rest. -/
def buildOutdatedList (npmOutdated : List (String × NpmOutdatedInfo)) :
    List OutdatedPackage :=
  npmOutdated.filterMap fun p =>
    if (validSemver p.2.current).isSome && (validSemver p.2.latest).isSome then
      some ⟨p.1, p.2.current, p.2.latest, determineUpdateType p.2.current p.2.latest⟩
    else none

/-- `normalizeSeverity`: lower-case and keep only exact matches of the four
known words; anything else (absent or falsy included) is `unknown`. -/
def normalizeSeverity (severity : Option String) : Severity :=
  match severity with
  | none => .unknown
  | some s =>
    if s = "" then .unknown
    else
      let normalized := jsToLower s
      if normalized = "critical" then .critical
      else if normalized = "high" then .high
      else if normalized = "moderate" then .moderate
      else if normalized = "low" then .low
      else .unknown

/-- The synthesized id ``vuln-${pkg}-${Date.now()}`` — `now` is the frozen
clock reading. -/
def synthesizedId (pkg : String) (now : Nat) : String :=
  "vuln-" ++ pkg ++ "-" ++ toString now

/-- Truthiness of `via.source || via.title`. -/
def viaFires (v : ViaObj) : Bool :=
  (match v.source with
   | some sv => sv.truthyV
   | none => false) || truthyStr v.title

/-- `via.source?.toString() || synthesized`. -/
def viaId (v : ViaObj) (pkg : String) (now : Nat) : String :=
  match v.source with
  | some sv =>
    let s := sv.render
    if s = "" then synthesizedId pkg now else s
  | none => synthesizedId pkg now

/-- `processVulnerabilities`: one `Vulnerability` per object `via` element
whose `source` or `title` is truthy, in iteration order; no deduplication. -/
def processVulnerabilities (npmAudit : AuditData) (now : Nat) : List Vulnerability :=
  match npmAudit.vulnerabilities with
  | none => []
  | some entries =>
    entries.flatMap fun pv =>
      match pv.2.via with
      | none => []
      | some vias =>
        vias.filterMap fun ve =>
          match ve with
          | .strElem _ => none
          | .objElem v =>
            if viaFires v then
              some { id := viaId v pv.1 now
                     package := pv.1
                     version := orElseStr v.range "unknown"
                     severity := normalizeSeverity v.severity
                     description := orElseStr v.title "No description available"
                     fixedIn := orElseStr pv.2.fixAvailableVersion "Check npm registry" }
            else none

/-- Per-severity deduction of `calculateHealthScore`. -/
def severityPenalty : Severity → Int
  | .critical => 15
  | .high => 10
  | .moderate => 5
  | .low => 2
  | .unknown => 0

/-- `calculateHealthScore`: start at 100, subtract the summary's severity
counts and the per-entry staleness penalties, clamp to `[0,100]`
(`Math.round` is the identity here: every deduction is an integer). -/
def calculateHealthScore (report : Report) : Int :=
  let score : Int := 100 - (report.summary.critical : Int) * 15
    - (report.summary.high : Int) * 10
    - (report.summary.moderate : Int) * 5
    - (report.summary.low : Int) * 2
  let score := report.outdated.foldl (fun score pkg =>
    let distance := calculateVersionDistance pkg.current pkg.latest
    match pkg.type with
    | .major => score - distance.majorVersionsBehind * 5
    | .minor => score - distance.minorVersionsBehind * 2
    | .patch => score - distance.patchVersionsBehind * 1) score
  max 0 (min 100 score)

/-- The summary recomputed from the two lists, as `generateDependencyReport`
does after processing vulnerabilities. -/
def derivedSummary (vulns : List Vulnerability) (outdated : List OutdatedPackage)
    (totalDeps totalDevDeps : Nat) : Summary :=
  { critical := (vulns.filter fun v => v.severity == Severity.critical).length
    high := (vulns.filter fun v => v.severity == Severity.high).length
    moderate := (vulns.filter fun v => v.severity == Severity.moderate).length
    low := (vulns.filter fun v => v.severity == Severity.low).length
    outdated := outdated.length
    totalDeps := totalDeps
    totalDevDeps := totalDevDeps }

/-- The health score as the pipeline computes it from the two lists (the
other report fields do not enter `calculateHealthScore`). -/
def healthScoreOf (vulns : List Vulnerability) (outdated : List OutdatedPackage) : Int :=
  calculateHealthScore
    { dependencies := .obj []
      devDependencies := .obj []
      healthScore := 100
      outdated := outdated
      summary := derivedSummary vulns outdated 0 0
      totalDependencies := 0
      vulnerabilities := vulns }

/-- The `try` body of `generateDependencyReport`. The frozen `npmAudit`
parameter is the settled result of `getNpmAudit` (that call never rejects:
it substitutes `{vulnerabilities: {}}` on any failure). -/
def generateDependencyReportTry (packageJson : JSValue) (registry : Registry)
    (npmAudit : AuditData) (now : Nat) : Except String Report := do
  let npmOutdated ← getOutdatedFast packageJson registry
  let depsP ← getProp packageJson "dependencies"
  let devDepsP ← getProp packageJson "devDependencies"
  let outdatedList := buildOutdatedList npmOutdated
  let vulnerabilities := processVulnerabilities npmAudit now
  let totalDeps := (spreadFields depsP).length
  let totalDevDeps := (spreadFields devDepsP).length
  let summary := derivedSummary vulnerabilities outdatedList totalDeps totalDevDeps
  let report : Report :=
    { dependencies := if truthy depsP then depsP else .obj []
      devDependencies := if truthy devDepsP then devDepsP else .obj []
      healthScore := 100
      outdated := outdatedList
      summary := summary
      totalDependencies := totalDeps + totalDevDeps
      vulnerabilities := vulnerabilities }
  pure { report with healthScore := calculateHealthScore report }

/-- `generateDependencyReport`: the `try` body wrapped by the `catch` that
re-raises with the descriptive message. -/
def generateDependencyReport (packageJson : JSValue) (registry : Registry)
    (npmAudit : AuditData) (now : Nat) : Except String Report :=
  match generateDependencyReportTry packageJson registry npmAudit now with
  | .ok r => .ok r
  | .error msg => .error ("Failed to generate dependency report: " ++ msg)

/-- Append a synthetic `via` entry, creating the package's record (with
`fixAvailable: {version: 'latest'}`) when none exists yet — the body of
`checkNpmsIoSecurity`'s two pushes. -/
def pushVia (o : Option VulnInfo) (v : ViaObj) : Option VulnInfo :=
  match o with
  | none => some { via := some [.objElem v], fixAvailableVersion := some "latest" }
  | some vi => some { vi with via := some ((vi.via.getD []) ++ [.objElem v]) }

/-- `checkNpmsIoSecurity`: quality/maintenance below 0.5 adds one synthetic
entry (`high` when quality < 0.3, else `moderate`); the vulnerability flag
independently adds a second. A rejected npms fetch is swallowed. -/
def checkNpmsIoSecurity (npms : Npms) (name currentVersion : String)
    (o : Option VulnInfo) : Option VulnInfo :=
  match npms name with
  | none => o
  | some nd =>
    let qualityLow := (match nd.quality with
      | some q => decide (q < (1 : Rat)/2)
      | none => false) ||
      (match nd.maintenance with
      | some m => decide (m < (1 : Rat)/2)
      | none => false)
    let o := if qualityLow then
        let sev := match nd.quality with
          | some q => if q < (3 : Rat)/10 then "high" else "moderate"
          | none => "moderate"
        pushVia o ⟨some (.str "npms-quality-check"),
          some "Low quality/maintenance score detected", some sev, some currentVersion⟩
      else o
    if nd.hasVulnerabilities then
      pushVia o ⟨some (.str "npms-vulnerability-flag"),
        some "Package flagged with known vulnerabilities", some "high", some currentVersion⟩
    else o

/-- Per-package body of `getNpmAuditFast`: the deprecation check against the
registry's per-version data, then the npms.io checks. A rejected registry
fetch or an unresolvable range skips the package. -/
def vulnsFor (registry : Registry) (npms : Npms) (name : String) (range : JSValue) :
    Option VulnInfo :=
  match registry name with
  | none => none
  | some pkgInfo =>
    match range with
    | .str rangeS =>
      match extractVersionFromRange rangeS with
      | none => none
      | some currentVersion =>
        let base : Option VulnInfo :=
          match pkgInfo.versions with
          | none => none
          | some versions =>
            match versions.lookup currentVersion with
            | none => none
            | some versionData =>
              match versionData.deprecated with
              | some msg =>
                if msg = "" then none
                else some
                  { via := some [.objElem ⟨some (.str ("npm-deprecated-" ++ name)),
                      some msg, some "moderate", some rangeS⟩]
                    fixAvailableVersion :=
                      some (orElseStr pkgInfo.distTagsLatest currentVersion) }
              | none => none
        checkNpmsIoSecurity npms name currentVersion base
    | _ => none

/-- `getNpmAuditFast`: fan out over the merged mappings, accumulate one
record per package; the outer `catch` substitutes `{vulnerabilities: {}}`. -/
def getNpmAuditFast (packageJson : JSValue) (registry : Registry) (npms : Npms) :
    AuditData :=
  match mergedDeps packageJson with
  | .error _ => { vulnerabilities := some [] }
  | .ok deps =>
    { vulnerabilities :=
        some (deps.filterMap fun p => (vulnsFor registry npms p.1 p.2).map fun vi => (p.1, vi)) }

/-- `generateVulnerabilityReport` as the caller observes it: the `try` body
(which touches `packageJson.name` for logging, then audits and processes)
wrapped by the `catch` that returns `[]`. -/
def generateVulnerabilityReport (packageJson : JSValue) (registry : Registry)
    (npms : Npms) (now : Nat) : Except String (List Vulnerability) :=
  match (do
      let _ ← getProp packageJson "name"
      let npmAudit := getNpmAuditFast packageJson registry npms
      pure (processVulnerabilities npmAudit now) : Except String (List Vulnerability)) with
  | .ok vs => .ok vs
  | .error _ => .ok []

/-- The comparator `(a, b) => semver.compare(a.current, b.current)`. The
source comparator throws on an invalid version; report entries always carry
valid versions, so the `.eq` default is never exercised by the service. -/
def compareCurrent (a b : OutdatedPackage) : Ordering :=
  match parseSemver a.current, parseSemver b.current with
  | some x, some y => compareSemver x y
  | _, _ => .eq

def insertSorted (x : OutdatedPackage) : List OutdatedPackage → List OutdatedPackage
  | [] => [x]
  | y :: ys => if compareCurrent x y == .lt then x :: y :: ys else y :: insertSorted x ys

/-- The stable sort `Array.prototype.sort` performs under the comparator
(stable sorting by a consistent comparator determines the result uniquely). -/
def sortedByCurrent (l : List OutdatedPackage) : List OutdatedPackage :=
  l.foldr insertSorted []

/-- `sortOutdatedByPriority`: `Array.prototype.sort` sorts in place and
returns the same array. First component: the state of the caller's array
after the call; second: the returned reference. -/
def sortOutdatedByPriority (outdatedList : List OutdatedPackage) :
    List OutdatedPackage × List OutdatedPackage :=
  let s := sortedByCurrent outdatedList
  (s, s)

-- ========================================
-- Spec-side definitions (written from the specification's words, for
-- comparison against the code-side definitions above)
-- ========================================

/-- Spec §4.1 `distance`: `majorBehind = latest.major − current.major`; the
lower tiers count only when every higher tier is level. -/
def specDistance (current latest : Semver) : Int × Int × Int :=
  let majorBehind : Int := (latest.major : Int) - (current.major : Int)
  let minorBehind : Int := if majorBehind = 0 then (latest.minor : Int) - (current.minor : Int) else 0
  let patchBehind : Int :=
    if majorBehind = 0 ∧ minorBehind = 0 then (latest.patch : Int) - (current.patch : Int) else 0
  (majorBehind, minorBehind, patchBehind)

/-- Spec §4.5 per-vulnerability deductions summed entry by entry. -/
def specVulnPenalty (vulns : List Vulnerability) : Int :=
  (vulns.map fun v => severityPenalty v.severity).sum

/-- Spec §4.5 per-outdated-entry deduction: the bump tier's multiplier times
the tiered distance (0 when a version fails to parse — the claims only
invoke this on valid versions). -/
def specEntryPenalty (e : OutdatedPackage) : Int :=
  match cleanParse e.current, cleanParse e.latest with
  | some c, some l =>
    let d := specDistance c l
    match e.type with
    | .major => 5 * d.1
    | .minor => 2 * d.2.1
    | .patch => 1 * d.2.2
  | _, _ => 0

def specOutdatedPenalty (outdated : List OutdatedPackage) : Int :=
  (outdated.map specEntryPenalty).sum

/-- The claim's bump classification: the tier of the first differing main
component, `patch` when only prerelease/build metadata differ. -/
def firstDiffTier (current latest : Semver) : UpdateType :=
  if current.major ≠ latest.major then .major
  else if current.minor ≠ latest.minor then .minor
  else .patch

/-- The region where `semver.diff`'s release-transition rules fire: the
strictly lower version is a prerelease and the strictly higher one is not. -/
def releaseTransition (c l : Semver) : Bool :=
  match compareSemver c l with
  | .eq => false
  | .lt => !c.prerelease.isEmpty && l.prerelease.isEmpty
  | .gt => !l.prerelease.isEmpty && c.prerelease.isEmpty

/-- A `via` element whose emitted id cannot embed the clock: either it never
fires, or its `source` renders to a nonempty string. -/
def viaSourced : ViaElem → Bool
  | .strElem _ => true
  | .objElem v =>
    !(viaFires v) ||
      (match v.source with
       | some sv => sv.render ≠ ""
       | none => false)

/-- Every `via` element of the audit data is `viaSourced`. -/
def allSourced (audit : AuditData) : Bool :=
  match audit.vulnerabilities with
  | none => true
  | some entries =>
    entries.all fun pv =>
      match pv.2.via with
      | none => true
      | some vias => vias.all viaSourced

/-- Number of object `via` elements whose `source` or `title` is truthy. -/
def firingCount (audit : AuditData) : Nat :=
  match audit.vulnerabilities with
  | none => 0
  | some entries =>
    (entries.map fun pv =>
      match pv.2.via with
      | none => 0
      | some vias =>
        vias.countP fun ve =>
          match ve with
          | .strElem _ => false
          | .objElem v => viaFires v).sum

-- ========================================
-- Concrete fixtures used by counterexamples and witnesses
-- ========================================

/-- A registry where every fetch fails. -/
def regNone : Registry := fun _ => none

/-- An npms source where every fetch fails. -/
def npmsNone : Npms := fun _ => none

/-- An audit result with no vulnerability entries. -/
def auditEmpty : AuditData := ⟨some []⟩

/-- Audit data with one `via` element carrying a `title` but no `source` —
the shape npm audit produces for advisories without a numeric source. -/
def auditUnsourced : AuditData :=
  ⟨some [("leftpad", ⟨some [.objElem ⟨none, some "bad advisory", none, none⟩], none⟩)]⟩

/-- Audit data whose single package repeats the same `source` twice. -/
def auditRepeated : AuditData :=
  ⟨some [("lodash",
    ⟨some [.objElem ⟨some (.str "GHSA-1"), some "first", none, none⟩,
           .objElem ⟨some (.str "GHSA-1"), some "second", none, none⟩], none⟩)]⟩

/-- The empty-object manifest. -/
def pjEmpty : JSValue := .obj []

/-- A manifest declaring one dependency with the non-exact range
`">=1.0.0 <2.0.0"`. -/
def pjRangeOnly : JSValue :=
  .obj [("dependencies", .obj [("foo", .str ">=1.0.0 <2.0.0")])]

/-- A registry knowing a newer major version of `foo`. -/
def regFoo : Registry :=
  fun n => if n = "foo" then some ⟨some "2.0.0", some []⟩ else none

/-- A manifest declaring `dup` in both mappings with different ranges. -/
def pjDup : JSValue :=
  .obj [("dependencies", .obj [("dup", .str "^1.0.0")]),
        ("devDependencies", .obj [("dup", .str "^2.0.0")])]

/-- A registry knowing `dup` with latest `3.0.0` and a deprecated `2.0.0`. -/
def regDup : Registry :=
  fun n => if n = "dup" then
    some ⟨some "3.0.0", some [("2.0.0", ⟨some "use v3"⟩), ("1.0.0", ⟨none⟩)]⟩
  else none

/-- Two outdated entries whose `current` versions are out of order. -/
def outdatedUnsorted : List OutdatedPackage :=
  [⟨"b", "2.0.0", "3.0.0", .major⟩, ⟨"a", "1.0.0", "2.0.0", .major⟩]

/-- The staleness deduction one entry contributes inside
`calculateHealthScore`'s fold. -/
def codeEntryPenalty (pkg : OutdatedPackage) : Int :=
  let distance := calculateVersionDistance pkg.current pkg.latest
  match pkg.type with
  | .major => distance.majorVersionsBehind * 5
  | .minor => distance.minorVersionsBehind * 2
  | .patch => distance.patchVersionsBehind * 1

/-- A concrete critical vulnerability. -/
def vCrit : Vulnerability := ⟨"GHSA-c", "pkga", "1.0.0", .critical, "desc", "2.0.0"⟩

/-- A concrete high vulnerability. -/
def vHigh : Vulnerability := ⟨"GHSA-h", "pkgb", "1.0.0", .high, "desc", "2.0.0"⟩

/-- The Report the engine produces for `pjRangeOnly` against `regFoo` with an
empty audit: the indeterminate range keeps `foo` out of the outdated list. -/
def c7Report : Report :=
  { dependencies := .obj [("foo", .str ">=1.0.0 <2.0.0")]
    devDependencies := .obj []
    healthScore := 100
    outdated := []
    summary := ⟨0, 0, 0, 0, 0, 1, 0⟩
    totalDependencies := 1
    vulnerabilities := [] }

/-- Audit data whose every `via` element carries a truthy `source`. -/
def auditSourced : AuditData :=
  ⟨some [("lodash", ⟨some [.objElem ⟨some (.str "GHSA-9"), some "t", some "high", none⟩], none⟩)]⟩

-- ========================================
-- Helper lemmas
-- ========================================

theorem length_filterMap_countP {α β : Type} (f : α → Option β) (l : List α) :
    (l.filterMap f).length = l.countP fun a => (f a).isSome := by
  induction l with
  | nil => rfl
  | cons a as ih =>
    cases h : f a <;>
      simp [List.filterMap_cons, h, List.countP_cons, ih]

theorem foldl_penalty (l : List OutdatedPackage) (init : Int) :
    l.foldl (fun score pkg =>
      let distance := calculateVersionDistance pkg.current pkg.latest
      match pkg.type with
      | .major => score - distance.majorVersionsBehind * 5
      | .minor => score - distance.minorVersionsBehind * 2
      | .patch => score - distance.patchVersionsBehind * 1) init
      = init - (l.map codeEntryPenalty).sum := by
  induction l generalizing init with
  | nil => simp
  | cons e es ih =>
    rw [List.foldl_cons, ih]
    cases he : e.type <;> simp [codeEntryPenalty, he] <;> ring

theorem codeEntryPenalty_eq_spec (e : OutdatedPackage) :
    codeEntryPenalty e = specEntryPenalty e := by
  cases hc : cleanParse e.current <;> cases hl : cleanParse e.latest <;>
    cases he : e.type <;>
    simp [codeEntryPenalty, specEntryPenalty, calculateVersionDistance, specDistance,
      hc, hl, he]
  case some.some.major => ring
  case some.some.minor => split_ifs <;> ring
  case some.some.patch => split_ifs <;> tauto

theorem vulnPenalty_counts (vulns : List Vulnerability) :
    specVulnPenalty vulns =
      ((vulns.filter fun v => v.severity == Severity.critical).length : Int) * 15
      + ((vulns.filter fun v => v.severity == Severity.high).length : Int) * 10
      + ((vulns.filter fun v => v.severity == Severity.moderate).length : Int) * 5
      + ((vulns.filter fun v => v.severity == Severity.low).length : Int) * 2 := by
  induction vulns with
  | nil => simp [specVulnPenalty]
  | cons v vs ih =>
    cases hv : v.severity <;>
      simp [specVulnPenalty, List.filter_cons, hv, severityPenalty,
        List.map_cons, List.sum_cons] at ih ⊢ <;>
      omega

theorem healthScore_formula (vulns : List Vulnerability) (outdated : List OutdatedPackage) :
    healthScoreOf vulns outdated
      = max 0 (min 100 (100 - specVulnPenalty vulns - specOutdatedPenalty outdated)) := by
  simp only [healthScoreOf, calculateHealthScore, derivedSummary, foldl_penalty]
  rw [vulnPenalty_counts]
  have : (outdated.map codeEntryPenalty).sum = specOutdatedPenalty outdated := by
    simp only [specOutdatedPenalty]
    exact congrArg List.sum (List.map_congr_left fun e _ => codeEntryPenalty_eq_spec e)
  rw [this]
  ring_nf

-- ========================================
-- Claims
-- ========================================

/-- C6: for every vulnerability list and every outdated list the computed
health score lies in `[0, 100]`, and for empty inputs it is exactly 100. -/
theorem c6_health_score_bounded :
    (∀ vulns outdated, 0 ≤ healthScoreOf vulns outdated ∧ healthScoreOf vulns outdated ≤ 100)
    ∧ healthScoreOf [] [] = 100 :=
  ⟨fun _ _ => ⟨le_max_left 0 _, max_le (by norm_num) (min_le_left _ _)⟩, rfl⟩

/-- C5: with valid versions throughout the outdated list, the health score is
exactly 100 minus the per-severity vulnerability deductions and the tiered
staleness deductions, clamped to `[0, 100]`; and one critical plus one high
vulnerability with nothing outdated scores exactly 75. -/
theorem c5_health_score_formula (vulns : List Vulnerability) (outdated : List OutdatedPackage)
    (h : ∀ e ∈ outdated, (cleanParse e.current).isSome ∧ (cleanParse e.latest).isSome) :
    healthScoreOf vulns outdated
      = max 0 (min 100 (100 - specVulnPenalty vulns - specOutdatedPenalty outdated))
    ∧ ∀ v1 v2 : Vulnerability, v1.severity = .critical → v2.severity = .high →
        healthScoreOf [v1, v2] [] = 75 := by
  refine ⟨healthScore_formula vulns outdated, fun v1 v2 h1 h2 => ?_⟩
  rw [healthScore_formula]
  simp [specVulnPenalty, specOutdatedPenalty, h1, h2, severityPenalty]

theorem c5_witness :
    (∀ e ∈ ([] : List OutdatedPackage),
      (cleanParse e.current).isSome ∧ (cleanParse e.latest).isSome)
    ∧ healthScoreOf [vCrit, vHigh] [] = 75 :=
  ⟨by simp, (c5_health_score_formula [] [] (by simp)).2 vCrit vHigh rfl rfl⟩

/-- C10: `generateVulnerabilityReport` never raises — for every manifest
value (structurally invalid ones included) and every frozen external
response it returns a vulnerability list. -/
theorem c10_never_raises (pj : JSValue) (reg : Registry) (npms : Npms) (now : Nat) :
    ∃ vs, generateVulnerabilityReport pj reg npms now = .ok vs := by
  unfold generateVulnerabilityReport
  cases hx : getProp pj "name" with
  | error e => exact ⟨[], by simp [hx, Except.bind]⟩
  | ok v =>
    exact ⟨processVulnerabilities (getNpmAuditFast pj reg npms) now,
      by simp [hx, Except.bind]⟩

/-- C2 counterexample: when the audit data repeats a `source` inside one
package's `via` array, the normalized list contains two entries with the
same (package, id) pair — no deduplication happens. -/
theorem c2_counterexample :
    ¬ (processVulnerabilities auditRepeated 0).Pairwise
        (fun a b => a.package ≠ b.package ∨ a.id ≠ b.id) := by decide

/-- C2 (amended): the aggregator performs no deduplication — it emits exactly
one entry per object `via` element whose `source` or `title` is truthy, so
(package, id) pairs repeat whenever the input repeats a source. -/
theorem c2_amended_one_entry_per_via (audit : AuditData) (now : Nat) :
    (processVulnerabilities audit now).length = firingCount audit := by
  unfold processVulnerabilities firingCount
  cases audit.vulnerabilities with
  | none => rfl
  | some entries =>
    simp only [List.length_flatMap]
    congr 1
    refine List.map_congr_left fun pv _ => ?_
    simp only [Function.comp_apply]
    cases hvia : pv.2.via with
    | none => simp [hvia]
    | some vias =>
      simp only [hvia, length_filterMap_countP]
      refine List.countP_congr fun ve _ => ?_
      cases ve with
      | strElem s => simp
      | objElem v => by_cases hf : viaFires v <;> simp [hf]

/-- Helper for C1: when every firing `via` element carries a nonempty
`source`, the processed list does not depend on the clock. -/
theorem processVulnerabilities_sourced (audit : AuditData)
    (h : allSourced audit = true) (n1 n2 : Nat) :
    processVulnerabilities audit n1 = processVulnerabilities audit n2 := by
  cases hv : audit.vulnerabilities with
  | none => simp [processVulnerabilities, hv]
  | some entries =>
    have h' : (entries.all fun pv =>
        match pv.2.via with
        | none => true
        | some vias => vias.all viaSourced) = true := by
      unfold allSourced at h
      rw [hv] at h
      exact h
    simp only [processVulnerabilities, hv]
    clear hv h
    revert h'
    induction entries with
    | nil => intro _; rfl
    | cons pv rest ih =>
      intro h'
      simp only [List.all_cons, Bool.and_eq_true] at h'
      simp only [List.flatMap_cons]
      congr 1
      · cases hvia : pv.2.via with
        | none => rfl
        | some vias =>
          refine List.filterMap_congr fun ve hve => ?_
          have hs : viaSourced ve = true := by
            have hp := h'.1
            rw [hvia] at hp
            simp only [List.all_eq_true] at hp
            exact hp ve hve
          cases ve with
          | strElem s => rfl
          | objElem v =>
            by_cases hf : viaFires v
            · simp only [viaSourced, hf, Bool.not_true, Bool.false_or] at hs
              cases hsrc : v.source with
              | none => rw [hsrc] at hs; simp at hs
              | some sv =>
                rw [hsrc] at hs
                simp only [decide_eq_true_eq] at hs
                simp [hf, viaId, hsrc, hs]
            · simp [hf]
      · exact ih h'.2

/-- C1 counterexample: with all external data frozen, two engine runs at
different clock readings produce different Reports — the synthesized id of a
`via` entry that has a `title` but no `source` embeds `Date.now()`. -/
theorem c1_counterexample :
    generateDependencyReport pjEmpty regNone auditUnsourced 0
      ≠ generateDependencyReport pjEmpty regNone auditUnsourced 1 := by
  intro h
  have h2 := congrArg (fun x => match x with
    | Except.ok r => r.vulnerabilities.map Vulnerability.id
    | Except.error _ => ([] : List String)) h
  exact absurd h2 (by decide)

/-- C1 (amended): the Report is a deterministic function of the manifest and
the frozen external data provided every `via` element of the audit data that
fires carries a nonempty `source`; only the synthesized fallback ids embed
the clock. -/
theorem c1_amended_deterministic (pj : JSValue) (reg : Registry) (audit : AuditData)
    (n1 n2 : Nat) (h : allSourced audit = true) :
    generateDependencyReport pj reg audit n1 = generateDependencyReport pj reg audit n2 := by
  unfold generateDependencyReport generateDependencyReportTry
  simp only [processVulnerabilities_sourced audit h n1 n2]

theorem c1_witness :
    allSourced auditSourced = true ∧
      generateDependencyReport pjEmpty regNone auditSourced 0
        = generateDependencyReport pjEmpty regNone auditSourced 5 :=
  ⟨by decide, c1_amended_deterministic pjEmpty regNone auditSourced 0 5 (by decide)⟩

/-- C4 counterexample: a manifest that is a plain number — not a mapping —
does not raise; the engine answers it with a (degraded) Report. -/
theorem c4_counterexample :
    (generateDependencyReport (.num 42) regNone auditEmpty 0).isOk = true := rfl

/-- Helper for C4: the report builder succeeds whenever both dependency
property reads succeed. -/
theorem genTry_isOk (pj : JSValue) (reg : Registry) (audit : AuditData) (now : Nat)
    (d dd : JSValue) (h1 : getProp pj "dependencies" = .ok d)
    (h2 : getProp pj "devDependencies" = .ok dd) :
    (generateDependencyReportTry pj reg audit now).isOk = true := by
  simp [generateDependencyReportTry, getOutdatedFast, mergedDeps, h1, h2,
    Except.bind, Except.isOk, Except.toBool, bind, pure, Except.pure]

/-- Helper for C4: property access succeeds on every non-nullish value. -/
theorem getProp_ok (pj : JSValue) (name : String) (h1 : pj ≠ .nullv) (h2 : pj ≠ .undefv) :
    ∃ v, getProp pj name = .ok v := by
  cases pj with
  | nullv => exact absurd rfl h1
  | undefv => exact absurd rfl h2
  | num n => exact ⟨.undefv, rfl⟩
  | str s => exact ⟨.undefv, rfl⟩
  | boolv b => exact ⟨.undefv, rfl⟩
  | obj fields => exact ⟨_, rfl⟩

/-- C4 (amended): only a nullish manifest (`null`/`undefined`, where property
access itself throws) is answered with the
"Failed to generate dependency report: <cause>" failure; any other
non-mapping manifest value (number, string, boolean) yields a degraded
complete Report — not a failure. -/
theorem c4_amended_nullish_only (reg : Registry) (audit : AuditData) (now : Nat) :
    (generateDependencyReport .nullv reg audit now
      = .error "Failed to generate dependency report: Cannot read properties of null (reading 'dependencies')")
    ∧ (generateDependencyReport .undefv reg audit now
      = .error "Failed to generate dependency report: Cannot read properties of undefined (reading 'dependencies')")
    ∧ ∀ pj : JSValue, pj ≠ .nullv → pj ≠ .undefv →
        (generateDependencyReport pj reg audit now).isOk = true := by
  refine ⟨rfl, rfl, fun pj h1 h2 => ?_⟩
  obtain ⟨d, hd⟩ := getProp_ok pj "dependencies" h1 h2
  obtain ⟨dd, hdd⟩ := getProp_ok pj "devDependencies" h1 h2
  have hTry := genTry_isOk pj reg audit now d dd hd hdd
  unfold generateDependencyReport
  cases hcase : generateDependencyReportTry pj reg audit now with
  | ok r => rfl
  | error msg => rw [hcase] at hTry; simp [Except.isOk, Except.toBool] at hTry

theorem c4_witness :
    (JSValue.num 42 ≠ JSValue.nullv) ∧ (JSValue.num 42 ≠ JSValue.undefv) ∧
      (generateDependencyReport (.num 42) regNone auditEmpty 0).isOk = true :=
  ⟨fun h => JSValue.noConfusion h, fun h => JSValue.noConfusion h,
    (c4_amended_nullish_only regNone auditEmpty 0).2.2 (.num 42)
      (fun h => JSValue.noConfusion h) (fun h => JSValue.noConfusion h)⟩

/-- Helper for C7: a successful dependency merge pins down both property
reads and the merged list. -/
theorem mergedDeps_parts (pj : JSValue) (deps : List (String × JSValue))
    (h : mergedDeps pj = .ok deps) :
    ∃ d dd, getProp pj "dependencies" = .ok d ∧ getProp pj "devDependencies" = .ok dd ∧
      deps = spreadMerge (spreadFields d) (spreadFields dd) := by
  unfold mergedDeps at h
  cases hd : getProp pj "dependencies" with
  | error e => rw [hd] at h; simp [bind, Except.bind] at h
  | ok d =>
    cases hdd : getProp pj "devDependencies" with
    | error e => rw [hd, hdd] at h; simp [bind, Except.bind] at h
    | ok dd =>
      rw [hd, hdd] at h
      simp only [bind, Except.bind, pure, Except.pure, Except.ok.injEq] at h
      exact ⟨d, dd, rfl, rfl, h.symm⟩

/-- Helper for C7: a package can only enter the outdated record when its
declared range resolves to a concrete version. -/
theorem outdatedFor_extract (reg : Registry) (n : String) (range : JSValue)
    (info : NpmOutdatedInfo) (h : outdatedFor reg n range = some info) :
    (extractVersionFromRangeJS range).isSome = true := by
  unfold outdatedFor at h
  cases hr : reg n with
  | none => rw [hr] at h; simp at h
  | some i =>
    rw [hr] at h
    cases hx : extractVersionFromRangeJS range with
    | some c => rfl
    | none => rw [hx] at h; cases i.distTagsLatest <;> simp at h

/-- C7: a range that does not reduce to one exact version (the spec's
examples included) yields no concrete version, and such a dependency never
appears in the outdated list of any produced Report — exclusion, not error. -/
theorem c7_indeterminate_ranges_excluded :
    extractVersionFromRange ">=1.0.0 <2.0.0" = none
    ∧ extractVersionFromRange "1.x" = none
    ∧ ∀ (pj : JSValue) (reg : Registry) (audit : AuditData) (now : Nat)
        (r : Report) (name : String),
        generateDependencyReport pj reg audit now = .ok r →
        (∀ deps range, mergedDeps pj = .ok deps → (name, range) ∈ deps →
          extractVersionFromRangeJS range = none) →
        (r.outdated.all fun e => e.package != name) = true := by
  refine ⟨rfl, rfl, fun pj reg audit now r name hok hnone => ?_⟩
  have hTry : generateDependencyReportTry pj reg audit now = .ok r := by
    unfold generateDependencyReport at hok
    cases hc : generateDependencyReportTry pj reg audit now with
    | ok r' =>
      rw [hc] at hok
      injection hok with hr
      rw [hr]
    | error m => rw [hc] at hok; exact absurd hok (by simp)
  unfold generateDependencyReportTry at hTry
  cases hmd : mergedDeps pj with
  | error m => simp [getOutdatedFast, hmd, bind, Except.bind] at hTry
  | ok deps =>
    obtain ⟨d, dd, hd, hdd, hdm⟩ := mergedDeps_parts pj deps hmd
    have hout : getOutdatedFast pj reg
        = .ok (deps.filterMap fun p => (outdatedFor reg p.1 p.2).map fun i => (p.1, i)) := by
      simp [getOutdatedFast, hmd, bind, Except.bind, pure, Except.pure]
    rw [hout, hd, hdd] at hTry
    simp only [bind, Except.bind, pure, Except.pure, Except.ok.injEq] at hTry
    have houtd : r.outdated
        = buildOutdatedList (deps.filterMap fun p => (outdatedFor reg p.1 p.2).map fun i => (p.1, i)) := by
      rw [← hTry]
    rw [List.all_eq_true]
    intro e he
    simp only [bne_iff_ne, ne_eq, decide_eq_true_eq]
    intro heq
    rw [houtd] at he
    unfold buildOutdatedList at he
    rw [List.mem_filterMap] at he
    obtain ⟨p, hpL, hpsome⟩ := he
    rw [List.mem_filterMap] at hpL
    obtain ⟨q, hq, hqsome⟩ := hpL
    rw [Option.map_eq_some'] at hqsome
    obtain ⟨info, hinfo, hpq⟩ := hqsome
    have hext := outdatedFor_extract reg q.1 q.2 info hinfo
    have hpn : e.package = p.1 := by
      by_cases hvalid : ((validSemver p.2.current).isSome && (validSemver p.2.latest).isSome) = true
      · rw [if_pos hvalid] at hpsome
        injection hpsome with hp
        rw [← hp]
      · rw [if_neg hvalid] at hpsome
        exact absurd hpsome (by simp)
    have hq1 : q.1 = name := by rw [← hpq] at hpn; rw [← hpn, heq]
    have hmem : (name, q.2) ∈ deps := by
      have : q = (name, q.2) := by
        rw [← hq1]
      rw [← this]
      exact hq
    have := hnone deps q.2 hmd hmem
    rw [this] at hext
    simp at hext

theorem c7_witness :
    generateDependencyReport pjRangeOnly regFoo auditEmpty 0 = .ok c7Report
    ∧ (c7Report.outdated.all fun e => e.package != "foo") = true := by
  refine ⟨rfl, ?_⟩
  refine c7_indeterminate_ranges_excluded.2.2 pjRangeOnly regFoo auditEmpty 0 c7Report "foo" rfl ?_
  intro deps range h1 h2
  have h0 : mergedDeps pjRangeOnly = .ok [("foo", JSValue.str ">=1.0.0 <2.0.0")] := rfl
  rw [h0] at h1
  injection h1 with h1
  rw [← h1] at h2
  simp only [List.mem_singleton, Prod.mk.injEq] at h2
  rw [h2.2]
  rfl

theorem cmpN_eq (a b : Nat) : cmpN a b = .eq ↔ a = b := by
  unfold cmpN
  split_ifs <;> simp <;> omega

/-- Helper for C3: equal comparison pins the three main components. -/
theorem compareSemver_main_eq (c l : Semver) (h : compareSemver c l = .eq) :
    c.major = l.major ∧ c.minor = l.minor ∧ c.patch = l.patch := by
  unfold compareSemver at h
  cases h1 : cmpN c.major l.major <;> simp only [h1] at h <;>
    [skip; skip; exact absurd h (by simp)]
  case lt => exact absurd h (by simp)
  case eq =>
    cases h2 : cmpN c.minor l.minor <;> simp only [h2] at h <;>
      [exact absurd h (by simp); skip; exact absurd h (by simp)]
    cases h3 : cmpN c.patch l.patch <;> simp only [h3] at h <;>
      [exact absurd h (by simp); skip; exact absurd h (by simp)]
    exact ⟨(cmpN_eq _ _).1 h1, (cmpN_eq _ _).1 h2, (cmpN_eq _ _).1 h3⟩

/-- C3 counterexample: for `current = 1.0.0-alpha`, `latest = 1.0.0` the
main components are identical and only the prerelease differs, yet the
classification is `major` (semver's release-transition rule), not `patch`
as the claim requires. -/
theorem c3_counterexample :
    determineUpdateType "1.0.0-alpha" "1.0.0" = UpdateType.major
    ∧ determineUpdateType "1.0.0-alpha" "1.0.0" ≠ UpdateType.patch :=
  ⟨rfl, by decide⟩

/-- C3 (amended): outside the release-transition region (a prerelease
`current`/`latest` on the strictly lower side against a plain release on the
higher side), the classification is exactly the tier of the first differing
main component, with prerelease-only and build-only differences giving
`patch`. -/
theorem c3_amended_first_component (sc sl : String) (c l : Semver)
    (hc : cleanParse sc = some c) (hl : cleanParse sl = some l)
    (hrt : releaseTransition c l = false) :
    determineUpdateType sc sl = firstDiffTier c l := by
  unfold determineUpdateType
  rw [hc, hl]
  unfold releaseTransition at hrt
  unfold firstDiffTier
  cases hcmp : compareSemver c l with
  | eq =>
    obtain ⟨h1, h2, _⟩ := compareSemver_main_eq c l hcmp
    simp [versionDiff, hcmp, h1, h2]
  | lt =>
    rw [hcmp] at hrt
    simp only [versionDiff, hcmp]
    simp only [show (Ordering.lt == Ordering.gt) = false from rfl, Bool.false_eq_true,
      if_false, Bool.not_not]
    have hrt' : (!c.prerelease.isEmpty && l.prerelease.isEmpty) = false := hrt
    rw [hrt']
    simp only [Bool.false_eq_true, if_false]
    by_cases h1 : c.major = l.major <;>
      by_cases h2 : c.minor = l.minor <;>
        by_cases h3 : c.patch = l.patch <;>
          simp only [h1, h2, h3, ne_eq, not_true_eq_false, not_false_eq_true,
            if_true, if_false, ite_true, ite_false] <;>
          first
          | rfl
          | (cases hcp : c.prerelease <;> cases hlp : l.prerelease <;> simp_all)
  | gt =>
    rw [hcmp] at hrt
    simp only [versionDiff, hcmp]
    simp only [show (Ordering.gt == Ordering.gt) = true from rfl, if_true, Bool.not_not]
    have hrt' : (!l.prerelease.isEmpty && c.prerelease.isEmpty) = false := hrt
    rw [hrt']
    simp only [Bool.false_eq_true, if_false]
    by_cases h1 : c.major = l.major <;>
      by_cases h2 : c.minor = l.minor <;>
        by_cases h3 : c.patch = l.patch <;>
          simp only [h1, h2, h3, ne_eq, not_true_eq_false, not_false_eq_true,
            if_true, if_false, ite_true, ite_false] <;>
          first
          | rfl
          | (cases hcp : c.prerelease <;> cases hlp : l.prerelease <;> simp_all)

theorem c3_witness :
    cleanParse "1.2.3" = some ⟨1, 2, 3, [], []⟩
    ∧ cleanParse "2.0.0" = some ⟨2, 0, 0, [], []⟩
    ∧ releaseTransition ⟨1, 2, 3, [], []⟩ ⟨2, 0, 0, [], []⟩ = false
    ∧ determineUpdateType "1.2.3" "2.0.0" = firstDiffTier ⟨1, 2, 3, [], []⟩ ⟨2, 0, 0, [], []⟩ :=
  ⟨rfl, rfl, rfl,
    c3_amended_first_component "1.2.3" "2.0.0" ⟨1, 2, 3, [], []⟩ ⟨2, 0, 0, [], []⟩ rfl rfl rfl⟩

theorem cmpN_swap (a b : Nat) : cmpN a b = (cmpN b a).swap := by
  unfold cmpN
  split_ifs <;> first | rfl | omega

theorem cmpChars_swap (a b : List Char) : cmpChars a b = (cmpChars b a).swap := by
  induction a generalizing b with
  | nil => cases b <;> rfl
  | cons x xs ih =>
    cases b with
    | nil => rfl
    | cons y ys =>
      simp only [cmpChars]
      rw [cmpN_swap x.toNat y.toNat]
      cases cmpN y.toNat x.toNat
      case lt => rfl
      case eq => exact ih ys
      case gt => rfl

theorem compareIdentifiers_swap (a b : String) :
    compareIdentifiers a b = (compareIdentifiers b a).swap := by
  unfold compareIdentifiers
  cases allDigits a <;> cases allDigits b
  case false.false => exact cmpChars_swap _ _
  case false.true => rfl
  case true.false => rfl
  case true.true => exact cmpN_swap _ _

theorem cmpIdList_swap (a b : List String) : cmpIdList a b = (cmpIdList b a).swap := by
  induction a generalizing b with
  | nil => cases b <;> rfl
  | cons x xs ih =>
    cases b with
    | nil => rfl
    | cons y ys =>
      simp only [cmpIdList]
      rw [compareIdentifiers_swap x y]
      cases compareIdentifiers y x
      case lt => rfl
      case eq => exact ih ys
      case gt => rfl

theorem comparePre_swap (a b : List String) : comparePre a b = (comparePre b a).swap := by
  cases a with
  | nil => cases b <;> rfl
  | cons x xs =>
    cases b with
    | nil => rfl
    | cons y ys => exact cmpIdList_swap (x :: xs) (y :: ys)

theorem compareSemver_swap (v w : Semver) : compareSemver v w = (compareSemver w v).swap := by
  unfold compareSemver
  rw [cmpN_swap v.major w.major, cmpN_swap v.minor w.minor, cmpN_swap v.patch w.patch,
    comparePre_swap v.prerelease w.prerelease]
  cases cmpN w.major v.major <;> cases cmpN w.minor v.minor <;>
    cases cmpN w.patch v.patch <;> rfl

theorem compareCurrent_swap (a b : OutdatedPackage) :
    compareCurrent a b = (compareCurrent b a).swap := by
  unfold compareCurrent
  cases parseSemver a.current <;> cases parseSemver b.current
  case none.none => rfl
  case none.some => rfl
  case some.none => rfl
  case some.some => exact compareSemver_swap _ _

/-- Helper for C8: not-less in one direction means not-greater in the other. -/
theorem compareCurrent_not_lt (a b : OutdatedPackage)
    (h : ¬ (compareCurrent a b == Ordering.lt) = true) :
    compareCurrent b a ≠ .gt := by
  rw [compareCurrent_swap b a]
  cases hc : compareCurrent a b
  case lt => exact absurd (by rw [hc]; rfl) h
  case eq => simp [Ordering.swap]
  case gt => simp [Ordering.swap]

theorem insertSorted_perm (x : OutdatedPackage) (l : List OutdatedPackage) :
    (insertSorted x l).Perm (x :: l) := by
  induction l with
  | nil => exact List.Perm.refl _
  | cons y ys ih =>
    simp only [insertSorted]
    split
    · exact List.Perm.refl _
    · exact (ih.cons y).trans (List.Perm.swap x y ys)

theorem insertSorted_head (x : OutdatedPackage) (l : List OutdatedPackage) :
    (insertSorted x l).head? = some x ∨ (insertSorted x l).head? = l.head? := by
  cases l with
  | nil => simp [insertSorted]
  | cons y ys =>
    simp only [insertSorted]
    split <;> simp

theorem insertSorted_chain (x : OutdatedPackage) (l : List OutdatedPackage)
    (h : l.Chain' fun a b => compareCurrent a b ≠ .gt) :
    (insertSorted x l).Chain' fun a b => compareCurrent a b ≠ .gt := by
  induction l with
  | nil => simp [insertSorted]
  | cons y ys ih =>
    simp only [insertSorted]
    by_cases hc : (compareCurrent x y == Ordering.lt) = true
    · rw [if_pos hc]
      refine List.chain'_cons.mpr ⟨?_, h⟩
      intro hgt
      rw [hgt] at hc
      exact absurd hc (by decide)
    · rw [if_neg hc]
      have hdecomp := List.chain'_cons'.mp h
      refine List.chain'_cons'.mpr ⟨?_, ih hdecomp.2⟩
      intro z hz
      rcases insertSorted_head x ys with hh | hh
      · rw [hh] at hz
        cases hz
        exact compareCurrent_not_lt x y hc
      · rw [hh] at hz
        exact hdecomp.1 z hz

theorem sortedByCurrent_perm (l : List OutdatedPackage) : (sortedByCurrent l).Perm l := by
  induction l with
  | nil => exact List.Perm.refl _
  | cons x xs ih =>
    exact (insertSorted_perm x (sortedByCurrent xs)).trans (ih.cons x)

theorem sortedByCurrent_chain (l : List OutdatedPackage) :
    (sortedByCurrent l).Chain' fun a b => compareCurrent a b ≠ .gt := by
  induction l with
  | nil => simp [sortedByCurrent]
  | cons x xs ih => exact insertSorted_chain x (sortedByCurrent xs) ih

/-- C8 counterexample: `sortOutdatedByPriority` does not leave its argument
unchanged — `Array.prototype.sort` sorts in place, so after the call the
caller's array (the report's `outdated` list) is reordered. -/
theorem c8_counterexample :
    (sortOutdatedByPriority outdatedUnsorted).1 ≠ outdatedUnsorted := by decide

/-- C8 (amended): `sortOutdatedByPriority` sorts the given array in place and
returns that same array: the returned list and the caller's post-call list
coincide, and they are a permutation of the input, adjacent-sorted under the
`semver.compare`-on-`current` comparator. The report's list is therefore
mutated (reordered) whenever it was not already sorted. -/
theorem c8_amended_in_place_sort (l : List OutdatedPackage) :
    (sortOutdatedByPriority l).2 = (sortOutdatedByPriority l).1
    ∧ ((sortOutdatedByPriority l).1).Perm l
    ∧ ((sortOutdatedByPriority l).1).Chain' (fun a b => compareCurrent a b ≠ .gt) :=
  ⟨rfl, sortedByCurrent_perm l, sortedByCurrent_chain l⟩

theorem lookup_map_override (a b : List (String × JSValue)) (k : String) :
    ((a.map fun p => (p.1, (b.lookup p.1).getD p.2)).lookup k)
      = (a.lookup k).map fun v => (b.lookup k).getD v := by
  induction a with
  | nil => rfl
  | cons p ps ih =>
    simp only [List.map_cons, List.lookup]
    by_cases hk : k = p.1
    · subst hk
      simp only [beq_self_eq_true]
      rfl
    · have hkb : (k == p.1) = false := beq_eq_false_iff_ne.mpr hk
      simp only [hkb]
      exact ih

/-- Helper for C9: `{...a, ...b}` answers a key present in `a` with `b`'s
value when `b` also binds it. -/
theorem lookup_spreadMerge (a b : List (String × JSValue)) (k : String) (v : JSValue)
    (ha : a.lookup k = some v) :
    (spreadMerge a b).lookup k = some ((b.lookup k).getD v) := by
  unfold spreadMerge
  rw [List.lookup_append, lookup_map_override, ha]
  rfl

theorem lookup_fmap_none {γ : Type} (f : String → JSValue → Option γ)
    (l : List (String × JSValue)) (k : String) (h : k ∉ l.map Prod.fst) :
    (l.filterMap fun p => (f p.1 p.2).map fun i => (p.1, i)).lookup k = none := by
  induction l with
  | nil => rfl
  | cons p ps ih =>
    simp only [List.map_cons, List.mem_cons, not_or] at h
    cases hf : f p.1 p.2 with
    | none => simp only [List.filterMap_cons, hf]; exact ih h.2
    | some i =>
      simp only [List.filterMap_cons, hf, Option.map_some', List.lookup]
      have hkb : (k == p.1) = false := beq_eq_false_iff_ne.mpr h.1
      simp only [hkb]
      exact ih h.2

/-- Helper for C9: with unique keys, looking a package up in the fan-out's
accumulated record is the per-package function applied to that package's
merged range. -/
theorem lookup_filterMap_keyed {γ : Type} (f : String → JSValue → Option γ)
    (l : List (String × JSValue)) (k : String) (hnd : (l.map Prod.fst).Nodup) :
    (l.filterMap fun p => (f p.1 p.2).map fun i => (p.1, i)).lookup k
      = (l.lookup k).bind (f k) := by
  induction l with
  | nil => rfl
  | cons p ps ih =>
    simp only [List.map_cons, List.nodup_cons] at hnd
    cases hf : f p.1 p.2 with
    | some i =>
      simp only [List.filterMap_cons, hf, Option.map_some', List.lookup]
      by_cases hk : k = p.1
      · subst hk
        simp only [beq_self_eq_true]
        exact hf.symm
      · have hkb : (k == p.1) = false := beq_eq_false_iff_ne.mpr hk
        simp only [hkb]
        exact ih hnd.2
    | none =>
      simp only [List.filterMap_cons, hf, Option.map_none', List.lookup]
      by_cases hk : k = p.1
      · subst hk
        simp only [beq_self_eq_true]
        rw [lookup_fmap_none f ps p.1 hnd.1]
        exact hf.symm
      · have hkb : (k == p.1) = false := beq_eq_false_iff_ne.mpr hk
        simp only [hkb]
        exact ih hnd.2

theorem lookup_isSome_of_mem_keys (l : List (String × JSValue)) (k : String)
    (h : k ∈ l.map Prod.fst) : (l.lookup k).isSome = true := by
  induction l with
  | nil => cases h
  | cons p ps ih =>
    simp only [List.map_cons, List.mem_cons] at h
    by_cases hk : k = p.1
    · subst hk
      simp [List.lookup, beq_self_eq_true]
    · have hkb : (k == p.1) = false := beq_eq_false_iff_ne.mpr hk
      simp only [List.lookup, hkb]
      exact ih (h.resolve_left hk)

/-- C9: when a package appears in both `dependencies` and `devDependencies`,
the spread merge makes the devDependencies range win, and both the outdated
fan-out and the vulnerability fan-out compute that package's entry from the
devDependencies range alone (the dependencies range `r1` does not occur in
the conclusion). -/
theorem c9_devdeps_precedence (pj : JSValue) (depsF devF : List (String × JSValue))
    (name r1 r2 : String) (reg : Registry) (npms : Npms)
    (hd : getProp pj "dependencies" = .ok (.obj depsF))
    (hdd : getProp pj "devDependencies" = .ok (.obj devF))
    (hndd : (depsF.map Prod.fst).Nodup) (hndv : (devF.map Prod.fst).Nodup)
    (h1 : depsF.lookup name = some (.str r1))
    (h2 : devF.lookup name = some (.str r2)) :
    (∃ out, getOutdatedFast pj reg = .ok out
      ∧ out.lookup name = outdatedFor reg name (.str r2))
    ∧ ((getNpmAuditFast pj reg npms).vulnerabilities.bind fun entries =>
        entries.lookup name) = vulnsFor reg npms name (.str r2) := by
  have hmd : mergedDeps pj = .ok (spreadMerge depsF devF) := by
    simp [mergedDeps, hd, hdd, bind, Except.bind, pure, Except.pure, spreadFields]
  have hmerged : (spreadMerge depsF devF).lookup name = some (.str r2) := by
    rw [lookup_spreadMerge depsF devF name (.str r1) h1, h2]
    rfl
  have hndm : ((spreadMerge depsF devF).map Prod.fst).Nodup := by
    unfold spreadMerge
    rw [List.map_append]
    have e1 : ((depsF.map fun p => (p.1, (devF.lookup p.1).getD p.2)).map Prod.fst)
        = depsF.map Prod.fst := by
      rw [List.map_map]
      rfl
    rw [e1]
    refine List.Nodup.append hndd ?_ ?_
    · exact ((List.filter_sublist devF).map Prod.fst).nodup hndv
    · intro k hk1 hk2
      rw [List.mem_map] at hk2
      obtain ⟨p, hp, hpk⟩ := hk2
      rw [List.mem_filter] at hp
      have hnone : (depsF.lookup p.1).isNone = true := hp.2
      have hsome : (depsF.lookup k).isSome = true := lookup_isSome_of_mem_keys depsF k hk1
      rw [← hpk] at hsome
      rw [Option.isNone_iff_eq_none] at hnone
      rw [hnone] at hsome
      cases hsome
  constructor
  · refine ⟨(spreadMerge depsF devF).filterMap
      (fun p => (outdatedFor reg p.1 p.2).map fun i => (p.1, i)), ?_, ?_⟩
    · simp [getOutdatedFast, hmd, bind, Except.bind, pure, Except.pure]
    · rw [lookup_filterMap_keyed (fun k v => outdatedFor reg k v) _ name hndm, hmerged]
      rfl
  · have haud : getNpmAuditFast pj reg npms
        = { vulnerabilities := some ((spreadMerge depsF devF).filterMap
            fun p => (vulnsFor reg npms p.1 p.2).map fun vi => (p.1, vi)) } := by
      simp [getNpmAuditFast, hmd]
    rw [haud]
    show ((spreadMerge depsF devF).filterMap
        fun p => (vulnsFor reg npms p.1 p.2).map fun vi => (p.1, vi)).lookup name
      = vulnsFor reg npms name (.str r2)
    rw [lookup_filterMap_keyed (fun k v => vulnsFor reg npms k v) _ name hndm, hmerged]
    rfl

theorem c9_witness :
    getProp pjDup "dependencies" = .ok (.obj [("dup", JSValue.str "^1.0.0")])
    ∧ ((∃ out, getOutdatedFast pjDup regDup = .ok out
        ∧ out.lookup "dup" = outdatedFor regDup "dup" (.str "^2.0.0"))
      ∧ ((getNpmAuditFast pjDup regDup npmsNone).vulnerabilities.bind fun entries =>
          entries.lookup "dup") = vulnsFor regDup npmsNone "dup" (.str "^2.0.0")) :=
  ⟨rfl, c9_devdeps_precedence pjDup [("dup", .str "^1.0.0")] [("dup", .str "^2.0.0")]
    "dup" "^1.0.0" "^2.0.0" regDup npmsNone rfl rfl (by decide) (by decide) rfl rfl⟩

end DepScout
